import Mathlib

/-!
Shallow embedding of the run-supervisor core of `miko` (src/main.go): the
`mito` start routine (workspace creation, input-file writes, argument
construction, spawn), the two stream-reader goroutines, the reap goroutine's
two-party completion barrier, and the Run/Cancel button handlers.

OS and library effects (temp-dir creation, file writes, pipe creation,
process start, kill delivery) are injected through an oracle record so the
control flow of `mito` can be reproduced faithfully as a pure function.
The Go `encoding/json` decoder and `MarshalIndent` are external library
collaborators; they are modelled below with numbers restricted to integers
(the Go decoder holds numbers as float64, and integral floats render without
a decimal point, so this agrees on every stream considered here) and with
objects as key-sorted association lists in which a duplicate key keeps the
last value (the Go decoder decodes an object into a map[string]any, which
forgets key order and keeps the last duplicate, and MarshalIndent renders map
keys in sorted order).
-/

namespace Miko

/-- A JSON value as decoded by `json.Decoder.Decode(&v)` with `v : any`.
Object fields are kept sorted by key with duplicates collapsed (last wins),
mirroring the `map[string]any` the Go decoder produces together with the
sorted-key rendering of `MarshalIndent`. -/
inductive JsonVal where
  | nullV : JsonVal
  | boolV (b : Bool) : JsonVal
  | numV (n : Int) : JsonVal
  | strV (s : String) : JsonVal
  | arrV (elems : List JsonVal) : JsonVal
  | objV (fields : List (String × JsonVal)) : JsonVal

/-- The opening-brace character, `Char.ofNat 123`. -/
def lbrace : Char := Char.ofNat 123

/-- The closing-brace character, `Char.ofNat 125`. -/
def rbrace : Char := Char.ofNat 125

/-- The opening-brace as a one-character string. -/
def lbraceS : String := String.singleton lbrace

/-- The closing-brace as a one-character string. -/
def rbraceS : String := String.singleton rbrace

/-- JSON whitespace accepted between values by the Go decoder. -/
def isWs (c : Char) : Bool := c = ' ' || c = '\t' || c = '\n' || c = '\r'

/-- Drop leading JSON whitespace. -/
def skipWs : List Char → List Char
  | [] => []
  | c :: cs => if isWs c then skipWs cs else c :: cs

/-- Repeat the tab indent character, the `MarshalIndent(v, "", "\t")` indent. -/
def tabs : Nat → String
  | 0 => ""
  | n + 1 => "\t" ++ tabs n

/-- Escape one character of a JSON string for re-serialization. -/
def escChar (c : Char) : String :=
  if c = '\"' then "\\\""
  else if c = '\\' then "\\\\"
  else if c = '\n' then "\\n"
  else if c = '\t' then "\\t"
  else if c = '\r' then "\\r"
  else String.singleton c

/-- Quote a string as a JSON string literal. -/
def quoteStr (s : String) : String :=
  "\"" ++ String.join (s.data.map escChar) ++ "\""

mutual

/-- Structural size of a JSON value, used only for decoder fuel bounds. -/
def sizeV : JsonVal → Nat
  | .nullV => 1
  | .boolV _ => 1
  | .numV _ => 1
  | .strV _ => 1
  | .arrV es => 1 + sizeL es
  | .objV fs => 1 + sizeF fs

/-- Structural size of a list of JSON values. -/
def sizeL : List JsonVal → Nat
  | [] => 0
  | v :: vs => 1 + sizeV v + sizeL vs

/-- Structural size of a field list. -/
def sizeF : List (String × JsonVal) → Nat
  | [] => 0
  | (_, v) :: fs => 1 + sizeV v + sizeF fs

end

mutual

/-- `json.MarshalIndent(v, "", "\t")` at nesting depth `d`: the canonical
pretty-printed rendering emitted for each decoded record. -/
def marshalVal : JsonVal → Nat → String
  | .nullV, _ => "null"
  | .boolV true, _ => "true"
  | .boolV false, _ => "false"
  | .numV n, _ => toString n
  | .strV s, _ => quoteStr s
  | .arrV [], _ => "[]"
  | .arrV (e :: es), d =>
      "[\n" ++ marshalArr (e :: es) (d + 1) ++ "\n" ++ tabs d ++ "]"
  | .objV [], _ => lbraceS ++ rbraceS
  | .objV (f :: fs), d =>
      lbraceS ++ "\n" ++ marshalObj (f :: fs) (d + 1) ++ "\n" ++ tabs d ++ rbraceS

/-- Array items, one per line at depth `d`, comma-separated. -/
def marshalArr : List JsonVal → Nat → String
  | [], _ => ""
  | [e], d => tabs d ++ marshalVal e d
  | e :: e' :: es, d =>
      tabs d ++ marshalVal e d ++ ",\n" ++ marshalArr (e' :: es) d

/-- Object fields, one per line at depth `d`, comma-separated. -/
def marshalObj : List (String × JsonVal) → Nat → String
  | [], _ => ""
  | [(k, v)], d => tabs d ++ quoteStr k ++ ": " ++ marshalVal v d
  | (k, v) :: f :: fs, d =>
      tabs d ++ quoteStr k ++ ": " ++ marshalVal v d ++ ",\n" ++ marshalObj (f :: fs) d

end

/-- `json.MarshalIndent(v, "", "\t")` as used by the stdout reader. -/
def marshalIndent (v : JsonVal) : String := marshalVal v 0

/-- Insert a decoded object field, keeping keys sorted and collapsing a
duplicate key to its last value, as `map[string]any` assignment does. -/
def insertField (k : String) (v : JsonVal) : List (String × JsonVal) → List (String × JsonVal)
  | [] => [(k, v)]
  | (k', v') :: fs =>
      if k = k' then (k, v) :: fs
      else if k < k' then (k, v) :: (k', v') :: fs
      else (k', v') :: insertField k v fs

/-- Read a decimal digit run, most significant first. -/
def readDigits (acc : Nat) : List Char → Nat × List Char
  | [] => (acc, [])
  | c :: cs =>
      if c.isDigit then readDigits (acc * 10 + (c.toNat - 48)) cs
      else (acc, c :: cs)

/-- Parse the body of a JSON string literal after its opening quote,
returning the unescaped content and the rest of the input. -/
def parseStrBody : Nat → List Char → Option (String × List Char)
  | 0, _ => none
  | _, [] => none
  | fuel + 1, c :: cs =>
      if c = '\"' then some ("", cs)
      else if c = '\\' then
        match cs with
        | [] => none
        | e :: cs' =>
            let dec : Option Char :=
              if e = '\"' then some '\"'
              else if e = '\\' then some '\\'
              else if e = '/' then some '/'
              else if e = 'n' then some '\n'
              else if e = 't' then some '\t'
              else if e = 'r' then some '\r'
              else none
            match dec with
            | none => none
            | some d =>
                match parseStrBody fuel cs' with
                | none => none
                | some (s, rest) => some (String.singleton d ++ s, rest)
      else
        match parseStrBody fuel cs with
        | none => none
        | some (s, rest) => some (String.singleton c ++ s, rest)

mutual

/-- Parse one JSON value from the input, fuel-indexed. Mirrors what one
`json.Decoder.Decode` call accepts for the streams this program sees. -/
def parseVal : Nat → List Char → Option (JsonVal × List Char)
  | 0, _ => none
  | fuel + 1, cs =>
      match skipWs cs with
      | [] => none
      | c :: rest =>
          if c = lbrace then
            match skipWs rest with
            | c' :: rest' =>
                if c' = rbrace then some (.objV [], rest')
                else parseFields fuel (c' :: rest') []
            | [] => none
          else if c = '[' then
            match skipWs rest with
            | c' :: rest' =>
                if c' = ']' then some (.arrV [], rest')
                else parseItems fuel (c' :: rest') []
            | [] => none
          else if c = '\"' then
            match parseStrBody (rest.length + 1) rest with
            | none => none
            | some (s, rest') => some (.strV s, rest')
          else if c = '-' then
            match rest with
            | d :: _ =>
                if d.isDigit then
                  let p := readDigits 0 rest
                  some (.numV (-(p.1 : Int)), p.2)
                else none
            | [] => none
          else if c.isDigit then
            let p := readDigits 0 (c :: rest)
            some (.numV (p.1 : Int), p.2)
          else if (c :: rest).take 4 = ['n', 'u', 'l', 'l'] then
            some (.nullV, (c :: rest).drop 4)
          else if (c :: rest).take 4 = ['t', 'r', 'u', 'e'] then
            some (.boolV true, (c :: rest).drop 4)
          else if (c :: rest).take 5 = ['f', 'a', 'l', 's', 'e'] then
            some (.boolV false, (c :: rest).drop 5)
          else none

/-- Items of a non-empty array, positioned at the first character of an item. -/
def parseItems : Nat → List Char → List JsonVal → Option (JsonVal × List Char)
  | 0, _, _ => none
  | fuel + 1, cs, acc =>
      match parseVal fuel cs with
      | none => none
      | some (v, rest) =>
          match skipWs rest with
          | ',' :: rest' => parseItems fuel rest' (acc ++ [v])
          | c :: rest' => if c = ']' then some (.arrV (acc ++ [v]), rest') else none
          | [] => none

/-- Fields of a non-empty object, positioned at the first character of a key. -/
def parseFields : Nat → List Char → List (String × JsonVal) →
    Option (JsonVal × List Char)
  | 0, _, _ => none
  | fuel + 1, cs, acc =>
      match skipWs cs with
      | c :: rest =>
          if c = '\"' then
            match parseStrBody (rest.length + 1) rest with
            | none => none
            | some (k, rest') =>
                match skipWs rest' with
                | ':' :: rest2 =>
                    match parseVal fuel rest2 with
                    | none => none
                    | some (v, rest3) =>
                        match skipWs rest3 with
                        | ',' :: rest4 => parseFields fuel rest4 (insertField k v acc)
                        | c' :: rest4 =>
                            if c' = rbrace then some (.objV (insertField k v acc), rest4)
                            else none
                        | [] => none
                | _ => none
          else none
      | [] => none

end

/-- Outcome of one `dec.Decode(&v)` call on the remaining byte stream. -/
inductive DecodeStep where
  | val (v : JsonVal) (rest : List Char) : DecodeStep
  | eofD : DecodeStep
  | errD (msg : String) : DecodeStep

/-- One `Decode` call: `io.EOF` when only whitespace remains, otherwise a
decoded value with the unconsumed remainder, otherwise a syntax error. -/
def decodeOne (cs : List Char) : DecodeStep :=
  match skipWs cs with
  | [] => .eofD
  | c :: rest =>
      match parseVal (cs.length + 1) (c :: rest) with
      | some (v, rest') => .val v rest'
      | none => .errD "invalid character in JSON stream"

/-- One unit of output to render, `type text struct { data, tag string }`. -/
structure text where
  data : String
  tag : String
deriving DecidableEq

/-- The Go errors the reader loops classify: `io.EOF`; an `*fs.PathError`
whose inner error is `fs.ErrClosed` (the pipe we closed ourselves via kill);
any other `*fs.PathError`; any other error. -/
inductive GoErr where
  | eofE : GoErr
  | pathClosed : GoErr
  | pathOther (msg : String) : GoErr
  | otherE (msg : String) : GoErr
deriving DecidableEq

/-- The message `err.Error()` would carry into `log.Println(err)`. -/
def errMsg : GoErr → String
  | .eofE => "EOF"
  | .pathClosed => "file already closed"
  | .pathOther m => m
  | .otherE m => m

/-- The classification in both reader loops:
`case err == io.EOF, errors.As(err, &pe) && pe.Err == fs.ErrClosed`. -/
def isEndOfStream : GoErr → Bool
  | .eofE => true
  | .pathClosed => true
  | .pathOther _ => false
  | .otherE _ => false

/-- Outcome of one `dec.Decode(&v)` call seen by the stdout reader loop. -/
inductive DecodeResult where
  | ok (v : JsonVal) : DecodeResult
  | fail (e : GoErr) : DecodeResult

/-- What a reader goroutine did before exiting: the events it sent on
`m.results`, the messages it passed to `log.Println`, how many reads it
consumed from its stream, and whether its deferred `cancel` (the single-fire
done signal) ran on exit — it runs on every exit path. -/
structure ReaderOut where
  events : List text
  logs : List String
  reads : Nat
  done : Bool
deriving DecidableEq

/-- The stdout reader goroutine's loop over successive decode outcomes:
on a decoded value, re-serialize with `MarshalIndent` and send one
`output`-tagged event; on `io.EOF` or a closed-by-us pipe error, return
silently; on any other error, `log.Println` it and return. Every exit path
fires the deferred `cancelStdout`. (`MarshalIndent` cannot fail on a value
produced by `Decode`, so its error branch is not reachable in the model.) -/
def stdoutReader : List DecodeResult → ReaderOut
  | [] => ⟨[], [], 0, true⟩
  | .ok v :: rs =>
      let r := stdoutReader rs
      ⟨⟨marshalIndent v, "output"⟩ :: r.events, r.logs, r.reads + 1, r.done⟩
  | .fail e :: _ =>
      if isEndOfStream e then ⟨[], [], 1, true⟩ else ⟨[], [errMsg e], 1, true⟩

/-- The records fully decoded from a stream of decode outcomes, in arrival
order: everything before the first failing read. -/
def decodedValues : List DecodeResult → List JsonVal
  | [] => []
  | .ok v :: rs => v :: decodedValues rs
  | .fail _ :: _ => []

/-- Drive `decodeOne` over a byte stream, producing the decode outcomes the
stdout reader consumes: the values in order, then `io.EOF` or a syntax
error. Fuel-indexed; `cs.length + 1` fuel always suffices since every
decoded value consumes at least one character. -/
def decodeOutcomes : Nat → List Char → List DecodeResult
  | 0, _ => []
  | fuel + 1, cs =>
      match decodeOne cs with
      | .eofD => [.fail .eofE]
      | .errD m => [.fail (.otherE m)]
      | .val v rest => .ok v :: decodeOutcomes fuel rest

/-- The `output`-tagged events the stdout reader emits for a byte stream. -/
def stdoutEvents (s : String) : List text :=
  (stdoutReader (decodeOutcomes (s.data.length + 1) s.data)).events

/-- What `bufio.Scanner` hands the stderr reader: the newline-delimited
lines `sc.Scan`/`sc.Text` yield, then the terminal `sc.Err()` value
(`none` for clean end of input). -/
structure ScanStream where
  lines : List String
  terminal : Option GoErr

/-- The stderr reader goroutine: one `error`-tagged event per scanned line;
then `sc.Err()` is classified by the same switch as the stdout reader —
nothing logged when it is nil, `io.EOF`, or a closed-by-us pipe error,
`log.Println` otherwise. The deferred `cancelStderr` fires on every path. -/
def stderrReader (s : ScanStream) : ReaderOut :=
  { events := s.lines.map fun l => ⟨l, "error"⟩
    logs :=
      match s.terminal with
      | none => []
      | some e => if isEndOfStream e then [] else [errMsg e]
    reads := s.lines.length
    done := true }

/-- Abstract handle to a spawned child process (`*os.Process`). -/
structure Process where
  pid : Nat
deriving DecidableEq

/-- The inputs `mito` reads from the `miko` struct: the three text widgets
and the three option checkboxes. -/
structure Inputs where
  src : String
  data : String
  cfg : String
  insecure : Bool
  logRequests : Bool
  dumpCrash : Bool
deriving DecidableEq

/-- The errors `mito` can return: temp-dir creation failure, one of the
three `os.WriteFile` failures, pipe-creation failures, `cmd.Start` failure. -/
inductive MitoErr where
  | mkdirFail : MitoErr
  | writeFail (name : String) : MitoErr
  | stdoutPipeFail : MitoErr
  | stderrPipeFail : MitoErr
  | startFail : MitoErr
deriving DecidableEq

/-- Success or failure of each OS operation `mito` performs, plus the name
`os.MkdirTemp` would pick and the pid `cmd.Start` would produce. -/
structure Oracle where
  dir : String
  pid : Nat
  mkdirOk : Bool
  writeDataOk : Bool
  writeCfgOk : Bool
  writeSrcOk : Bool
  stdoutPipeOk : Bool
  stderrPipeOk : Bool
  startOk : Bool
deriving DecidableEq

/-- An oracle on which every OS operation succeeds. -/
def allOk (dir : String) (pid : Nat) : Oracle :=
  ⟨dir, pid, true, true, true, true, true, true, true⟩

/-- `filepath.Join dir name`. -/
def fjoin (dir name : String) : String := dir ++ "/" ++ name

/-- Everything observable about one `mito` call: its two return values, the
directory and the files it created (paths in write order), the argument list
it built, whether `cmd.Start` ran successfully, and whether the deferred
`os.RemoveAll(dir)` ran because `cmd` was still nil on return. -/
structure MitoResult where
  proc : Option Process
  err : Option MitoErr
  dirCreated : Bool
  filesWritten : List String
  args : List String
  spawned : Bool
  cleanupRan : Bool
deriving DecidableEq

/-- `func (m *miko) mito(keep bool) (*os.Process, error)`, src/main.go lines
347-461, with OS effects replayed from the oracle. The `keep` flag is only
read by the reap goroutine, modelled separately by `filesAfterReap` and the
`RunStep` system, so it does not appear in the returned record. -/
def mito (m : Inputs) (keep : Bool) (o : Oracle) : MitoResult :=
  if m.src = "" then
    -- `if src == "" { return nil, nil }`: before MkdirTemp, so no side effects.
    ⟨none, none, false, [], [], false, false⟩
  else if !o.mkdirOk then
    -- `os.MkdirTemp` failed: no directory exists.
    ⟨none, some .mkdirFail, false, [], [], false, false⟩
  else if m.data != "" && !o.writeDataOk then
    -- data.json write failed; deferred `if cmd == nil { os.RemoveAll(dir) }` runs.
    ⟨none, some (.writeFail "data.json"), true, [], [], false, true⟩
  else
    let files1 := if m.data != "" then [fjoin o.dir "data.json"] else []
    let args1 := if m.data != "" then ["-data", fjoin o.dir "data.json"] else []
    if m.cfg != "" && !o.writeCfgOk then
      ⟨none, some (.writeFail "cfg.yml"), true, files1, args1, false, true⟩
    else
      let files2 := files1 ++ (if m.cfg != "" then [fjoin o.dir "cfg.yml"] else [])
      let args2 := args1 ++ (if m.cfg != "" then ["-cfg", fjoin o.dir "cfg.yml"] else [])
      let args3 := args2 ++ (if m.insecure then ["-insecure"] else [])
        ++ (if m.logRequests then ["-log_requests"] else [])
        ++ (if m.dumpCrash then ["-dump", "error"] else [])
      if !o.writeSrcOk then
        ⟨none, some (.writeFail "src.cel"), true, files2, args3, false, true⟩
      else
        let files3 := files2 ++ [fjoin o.dir "src.cel"]
        let args4 := args3 ++ [fjoin o.dir "src.cel"]
        -- From here `cmd != nil`, so the deferred RemoveAll no longer fires.
        if !o.stdoutPipeOk then
          ⟨none, some .stdoutPipeFail, true, files3, args4, false, false⟩
        else if !o.stderrPipeOk then
          ⟨none, some .stderrPipeFail, true, files3, args4, false, false⟩
        else if !o.startOk then
          ⟨none, some .startFail, true, files3, args4, false, false⟩
        else
          ⟨some ⟨o.pid⟩, none, true, files3, args4, true, false⟩

/-- Workspace files still on disk when `mito` returns: the deferred
`os.RemoveAll(dir)` has removed them all when it ran. -/
def filesAfterReturn (r : MitoResult) : List String :=
  if r.cleanupRan then [] else r.filesWritten

/-- Workspace files still on disk after the reap goroutine's disposal step,
`if !keep { os.RemoveAll(dir) }`: all removed when keep is false, all kept
when keep is true. -/
def filesAfterReap (r : MitoResult) (keep : Bool) : List String :=
  if keep then r.filesWritten else []

/-- The events a `mito` call can ever produce: readers are attached to the
pipes, so a run that never spawned produces none. -/
def runEvents (r : MitoResult) (stdoutStream : List DecodeResult)
    (stderrStream : ScanStream) : List text × List text :=
  if r.spawned then
    ((stdoutReader stdoutStream).events, (stderrReader stderrStream).events)
  else
    ([], [])

/-- The state the button handlers touch: the atomic process slot `m.ps`
and the widget inputs. -/
structure MikoState where
  ps : Option Process
  inputs : Inputs
deriving DecidableEq

/-- The observable actions a button handler performs, in order: deliver
`ps.Kill()`, run `cmd.Start()` with the built argument list, store into the
`m.ps` slot, `log.Println`, or `m.printError` (a direct write of the error
text into the display widget, bypassing the `m.results` Event Queue). -/
inductive Action where
  | killAct (p : Process) : Action
  | spawnAct (args : List String) : Action
  | storeAct (p : Option Process) : Action
  | logAct (msg : String) : Action
  | printErrAct (msg : String) : Action
deriving DecidableEq

/-- The message a failed `ps.Kill()` reports through `m.printError`. -/
def killErrText : String := "os: process already finished"

/-- Render a `MitoErr` as the message `m.printError` would display. -/
def mitoErrText : MitoErr → String
  | .mkdirFail => "mkdir temp failed"
  | .writeFail n => "write " ++ n ++ " failed"
  | .stdoutPipeFail => "stdout pipe failed"
  | .stderrPipeFail => "stderr pipe failed"
  | .startFail => "exec: mito: executable file not found in search path"

/-- The Run button Command (src/main.go lines 134-149): kill any prior
process (reporting a kill failure through `printError`), call
`m.mito(false)`, unconditionally store the returned handle — nil included —
into `m.ps`, and report a returned error through `printError`. -/
def runCommand (s : MikoState) (killOk : Bool) (o : Oracle) :
    MikoState × List Action :=
  let killActs : List Action :=
    match s.ps with
    | some p => .killAct p :: (if killOk then [] else [.printErrAct killErrText])
    | none => []
  let r := mito s.inputs false o
  let mitoActs : List Action := if r.spawned then [.spawnAct r.args] else []
  let post : List Action :=
    .storeAct r.proc ::
      (match r.err with
       | some e => [.printErrAct (mitoErrText e)]
       | none => [])
  ({ s with ps := r.proc }, killActs ++ mitoActs ++ post)

/-- The Cancel button Command (src/main.go lines 175-185): kill the stored
process when one is present, reporting a kill failure through `printError`;
a nil slot makes the press a no-op. -/
def cancelCommand (s : MikoState) (killOk : Bool) : MikoState × List Action :=
  match s.ps with
  | some p => (s, .killAct p :: (if killOk then [] else [.printErrAct killErrText]))
  | none => (s, [])

/-- Is this action a `log.Println` call? -/
def Action.isLog : Action → Bool
  | .logAct _ => true
  | _ => false

/-- Program counter of the reap goroutine (src/main.go lines 451-459):
receive on `ctxStdout.Done()`, receive on `ctxStderr.Done()`, `cmd.Wait()`,
`m.ps.Store(nil)`, `os.RemoveAll(dir)` when keep is false, exit. -/
inductive ReapPC where
  | recvStdout : ReapPC
  | recvStderr : ReapPC
  | doWait : ReapPC
  | doClear : ReapPC
  | doRemove : ReapPC
  | finished : ReapPC
deriving DecidableEq

/-- How far the reap goroutine has advanced. -/
def ReapPC.rank : ReapPC → Nat
  | .recvStdout => 0
  | .recvStderr => 1
  | .doWait => 2
  | .doClear => 3
  | .doRemove => 4
  | .finished => 5

/-- State of one run's teardown machinery: whether each reader's deferred
context cancel (its single-fire done signal) has fired, the reap
goroutine's program counter, whether a kill has been delivered, and which
finalize effects have happened. -/
structure RunSys where
  stdoutDone : Bool
  stderrDone : Bool
  pc : ReapPC
  killed : Bool
  waited : Bool
  slotCleared : Bool
  removed : Bool
deriving DecidableEq

/-- The state right after `cmd.Start()` succeeded and the goroutines began. -/
def initRun : RunSys :=
  ⟨false, false, .recvStdout, false, false, false, false⟩

/-- Interleaved steps of the two reader goroutines, the kill path, and the
reap goroutine. A reader may exit (firing its deferred cancel) at any time —
on end of stream, on a read error, or after a kill closed its pipe. A kill
may be delivered at any time, including immediately after start, and fires
no done signal itself. The reap goroutine's two channel receives are enabled
only once the corresponding context has been cancelled; its wait, slot
clear, and conditional remove then run in program order. -/
inductive RunStep (keep : Bool) : RunSys → RunSys → Prop where
  | stdoutExit (s : RunSys) :
      RunStep keep s { s with stdoutDone := true }
  | stderrExit (s : RunSys) :
      RunStep keep s { s with stderrDone := true }
  | killDeliver (s : RunSys) :
      RunStep keep s { s with killed := true }
  | recvStdout (s : RunSys) :
      s.pc = .recvStdout → s.stdoutDone = true →
      RunStep keep s { s with pc := .recvStderr }
  | recvStderr (s : RunSys) :
      s.pc = .recvStderr → s.stderrDone = true →
      RunStep keep s { s with pc := .doWait }
  | reapWait (s : RunSys) :
      s.pc = .doWait →
      RunStep keep s { s with pc := .doClear, waited := true }
  | reapClear (s : RunSys) :
      s.pc = .doClear →
      RunStep keep s { s with pc := .doRemove, slotCleared := true }
  | reapRemove (s : RunSys) :
      s.pc = .doRemove →
      RunStep keep s { s with pc := .finished, removed := !keep }

/-- States reachable from the post-start state by any interleaving. -/
inductive RunReachable (keep : Bool) : RunSys → Prop where
  | init : RunReachable keep initRun
  | step {s s' : RunSys} :
      RunReachable keep s → RunStep keep s s' → RunReachable keep s'

/-- Has any part of finalize (reap, slot clear, workspace removal) run? -/
def finalized (s : RunSys) : Bool := s.waited || s.slotCleared || s.removed

/-- The inductive invariant of the teardown system: the reap goroutine's
progress is bounded by the done signals, and each finalize effect is bounded
by the reap goroutine's progress. -/
def RunInv (s : RunSys) : Prop :=
  (1 ≤ s.pc.rank → s.stdoutDone = true) ∧
  (2 ≤ s.pc.rank → s.stderrDone = true) ∧
  (s.waited = true → 3 ≤ s.pc.rank) ∧
  (s.slotCleared = true → 4 ≤ s.pc.rank) ∧
  (s.removed = true → 5 ≤ s.pc.rank)

theorem runInv_init : RunInv initRun := by
  simp [RunInv, initRun, ReapPC.rank]

theorem runInv_step {keep : Bool} {s s' : RunSys} (inv : RunInv s)
    (st : RunStep keep s s') : RunInv s' := by
  obtain ⟨h1, h2, h3, h4, h5⟩ := inv
  cases st with
  | stdoutExit => exact ⟨fun _ => rfl, h2, h3, h4, h5⟩
  | stderrExit => exact ⟨h1, fun _ => rfl, h3, h4, h5⟩
  | killDeliver => exact ⟨h1, h2, h3, h4, h5⟩
  | recvStdout hpc hdone =>
      refine ⟨fun _ => hdone, fun h => absurd h (by simp [ReapPC.rank]),
        fun hw => ?_, fun hc => ?_, fun hm => ?_⟩
      · have h := h3 hw; rw [hpc] at h; exact absurd h (by decide)
      · have h := h4 hc; rw [hpc] at h; exact absurd h (by decide)
      · have h := h5 hm; rw [hpc] at h; exact absurd h (by decide)
  | recvStderr hpc hdone =>
      refine ⟨fun _ => h1 (by rw [hpc]; decide), fun _ => hdone,
        fun hw => ?_, fun hc => ?_, fun hm => ?_⟩
      · have h := h3 hw; rw [hpc] at h; exact absurd h (by decide)
      · have h := h4 hc; rw [hpc] at h; exact absurd h (by decide)
      · have h := h5 hm; rw [hpc] at h; exact absurd h (by decide)
  | reapWait hpc =>
      refine ⟨fun _ => h1 (by rw [hpc]; decide), fun _ => h2 (by rw [hpc]; decide),
        fun _ => by simp [ReapPC.rank], fun hc => ?_, fun hm => ?_⟩
      · have h := h4 hc; rw [hpc] at h; exact absurd h (by decide)
      · have h := h5 hm; rw [hpc] at h; exact absurd h (by decide)
  | reapClear hpc =>
      refine ⟨fun _ => h1 (by rw [hpc]; decide), fun _ => h2 (by rw [hpc]; decide),
        fun _ => by simp [ReapPC.rank], fun _ => by simp [ReapPC.rank], fun hm => ?_⟩
      have h := h5 hm; rw [hpc] at h; exact absurd h (by decide)
  | reapRemove hpc =>
      exact ⟨fun _ => h1 (by rw [hpc]; decide), fun _ => h2 (by rw [hpc]; decide),
        fun _ => by simp [ReapPC.rank], fun _ => by simp [ReapPC.rank],
        fun _ => by simp [ReapPC.rank]⟩

theorem runInv_reachable {keep : Bool} {s : RunSys}
    (h : RunReachable keep s) : RunInv s := by
  induction h with
  | init => exact runInv_init
  | step _ st ih => exact runInv_step ih st

/-! Helper lemmas shared by several results. -/

theorem stdoutReader_events_eq (rs : List DecodeResult) :
    (stdoutReader rs).events =
      (decodedValues rs).map fun v => text.mk (marshalIndent v) "output" := by
  induction rs with
  | nil => rfl
  | cons r rs ih =>
      cases r with
      | ok v => simp [stdoutReader, decodedValues, ih]
      | fail e => cases he : isEndOfStream e <;> simp [stdoutReader, decodedValues, he]

theorem stdoutReader_stops (vs : List JsonVal) (e : GoErr) (rest : List DecodeResult) :
    stdoutReader (vs.map .ok ++ .fail e :: rest) =
      ⟨vs.map fun v => ⟨marshalIndent v, "output"⟩,
       if isEndOfStream e then [] else [errMsg e],
       vs.length + 1, true⟩ := by
  induction vs with
  | nil =>
      simp only [List.map_nil, List.nil_append]
      cases he : isEndOfStream e <;> simp [stdoutReader, he]
  | cons v vs ih => simp [stdoutReader, ih]

/-- The structured-record stream of the spec's test: two concatenated
one-field objects, the first binding key a to 1, the second key b to 2. -/
def jsonExample : String := "\x7b\"a\":1\x7d\x7b\"b\":2\x7d"

/-- The pretty-printed rendering of the first record. -/
def prettyA : String := "\x7b\n\t\"a\": 1\n\x7d"

/-- The pretty-printed rendering of the second record. -/
def prettyB : String := "\x7b\n\t\"b\": 2\n\x7d"

/-- C1: whenever a Run request is issued while a prior process handle is
stored in the active slot, the handler's first action is to attempt to kill
that prior handle — before any spawn of the new run — and the slot is then
overwritten with the new run's handle, so at most one process handle is
active at a time. -/
theorem run_kills_prior_before_start_and_overwrites_slot
    (s : MikoState) (killOk : Bool) (o : Oracle) (p : Process)
    (h : s.ps = some p) :
    (runCommand s killOk o).2.head? = some (.killAct p) ∧
    (runCommand s killOk o).1.ps = (mito s.inputs false o).proc := by
  unfold runCommand
  rw [h]
  cases killOk <;> simp

theorem run_kills_prior_before_start_and_overwrites_slot_witness :
    (runCommand ⟨some ⟨7⟩, ⟨"x", "", "", false, false, false⟩⟩ true
        (allOk "/tmp/miko-1" 42)).2.head? = some (.killAct ⟨7⟩) ∧
    (runCommand ⟨some ⟨7⟩, ⟨"x", "", "", false, false, false⟩⟩ true
        (allOk "/tmp/miko-1" 42)).1.ps =
      (mito ⟨"x", "", "", false, false, false⟩ false (allOk "/tmp/miko-1" 42)).proc :=
  run_kills_prior_before_start_and_overwrites_slot _ true _ ⟨7⟩ rfl

/-- C2: in every state the teardown system can reach — under any
interleaving of the two reader exits, a kill delivered at any moment
(immediately after start included), and the reap goroutine's own steps —
if any part of finalize has executed (the blocking wait, the clearing of
the active-handle slot, or the workspace removal), then both stream
readers had already fired their single-fire done signals. -/
theorem finalize_gated_on_both_done_signals
    (keep : Bool) (s : RunSys) (h : RunReachable keep s)
    (hfin : finalized s = true) :
    s.stdoutDone = true ∧ s.stderrDone = true := by
  obtain ⟨h1, h2, h3, h4, h5⟩ := runInv_reachable h
  have hsplit : (s.waited = true ∨ s.slotCleared = true) ∨ s.removed = true := by
    simpa [finalized] using hfin
  have hrank : 3 ≤ s.pc.rank := by
    rcases hsplit with (hw | hc) | hm
    · exact h3 hw
    · exact le_trans (by norm_num) (h4 hc)
    · exact le_trans (by norm_num) (h5 hm)
  exact ⟨h1 (le_trans (by norm_num) hrank), h2 (le_trans (by norm_num) hrank)⟩

theorem finalize_gated_on_both_done_signals_witness :
    finalized (⟨true, true, .doClear, true, true, false, false⟩ : RunSys) = true ∧
    (⟨true, true, .doClear, true, true, false, false⟩ : RunSys).stdoutDone = true ∧
    (⟨true, true, .doClear, true, true, false, false⟩ : RunSys).stderrDone = true :=
  ⟨rfl,
   finalize_gated_on_both_done_signals false _
     (.step (.step (.step (.step (.step (.step .init (.killDeliver _))
       (.stdoutExit _)) (.stderrExit _)) (.recvStdout _ rfl rfl))
       (.recvStderr _ rfl rfl)) (.reapWait _ rfl))
     rfl⟩

/-- C3: on a successful start, the workspace receives exactly
N = 1 + [data non-empty] + [cfg non-empty] files (program text always,
data and config only when non-empty); the reap step deletes all of them
when keep is false and none of them when keep is true. -/
theorem workspace_writes_exactly_n_and_teardown
    (m : Inputs) (keep : Bool) (dir : String) (pid : Nat)
    (h : m.src ≠ "") :
    (mito m keep (allOk dir pid)).filesWritten.length =
      1 + (if m.data ≠ "" then 1 else 0) + (if m.cfg ≠ "" then 1 else 0) ∧
    filesAfterReap (mito m keep (allOk dir pid)) false = [] ∧
    filesAfterReap (mito m keep (allOk dir pid)) true =
      (mito m keep (allOk dir pid)).filesWritten := by
  by_cases hd : m.data = "" <;> by_cases hc : m.cfg = "" <;>
    simp [mito, allOk, filesAfterReap, h, hd, hc]

theorem workspace_writes_exactly_n_and_teardown_witness :
    (mito ⟨"x", "y", "", false, false, false⟩ false (allOk "/tmp/miko-2" 5)).filesWritten.length =
      1 + (if ("y" : String) ≠ "" then 1 else 0) + (if ("" : String) ≠ "" then 1 else 0) ∧
    filesAfterReap (mito ⟨"x", "y", "", false, false, false⟩ false (allOk "/tmp/miko-2" 5)) false = [] ∧
    filesAfterReap (mito ⟨"x", "y", "", false, false, false⟩ false (allOk "/tmp/miko-2" 5)) true =
      (mito ⟨"x", "y", "", false, false, false⟩ false (allOk "/tmp/miko-2" 5)).filesWritten :=
  workspace_writes_exactly_n_and_teardown _ false "/tmp/miko-2" 5 (by decide)

/-- C4: each fully decoded record on the structured stream is re-serialized
with MarshalIndent and sent as exactly one output-tagged event, in arrival
order; on the stream containing the two objects a:1 and b:2 this yields
exactly two output-tagged events, each a pretty-printed rendering that
decodes back to the corresponding input object, in that order. -/
theorem structured_records_one_pretty_event_each_in_order :
    (∀ rs : List DecodeResult,
      (stdoutReader rs).events =
        (decodedValues rs).map fun v => text.mk (marshalIndent v) "output") ∧
    decodedValues (decodeOutcomes (jsonExample.data.length + 1) jsonExample.data) =
      [.objV [("a", .numV 1)], .objV [("b", .numV 2)]] ∧
    stdoutEvents jsonExample = [⟨prettyA, "output"⟩, ⟨prettyB, "output"⟩] ∧
    marshalIndent (.objV [("a", .numV 1)]) = prettyA ∧
    marshalIndent (.objV [("b", .numV 2)]) = prettyB ∧
    decodeOne prettyA.data = .val (.objV [("a", .numV 1)]) [] ∧
    decodeOne prettyB.data = .val (.objV [("b", .numV 2)]) [] :=
  ⟨stdoutReader_events_eq, rfl, rfl, rfl, rfl, rfl, rfl⟩

/-- C5: both reader loops classify a read result of exactly io.EOF or a
closed-by-us pipe error as normal end of stream — the loop stops cleanly,
the deferred done signal fires, and nothing is logged; any other error is
logged and also ends the loop; and no read after the first failing one is
ever attempted, whatever follows it in the stream. -/
theorem reader_error_classification_and_no_retry :
    (∀ e, isEndOfStream e = true ↔ e = .eofE ∨ e = .pathClosed) ∧
    (∀ (vs : List JsonVal) (e : GoErr) (rest : List DecodeResult),
      stdoutReader (vs.map .ok ++ .fail e :: rest) =
        ⟨vs.map fun v => ⟨marshalIndent v, "output"⟩,
         if isEndOfStream e then [] else [errMsg e],
         vs.length + 1, true⟩) ∧
    (∀ (lines : List String) (e : GoErr),
      (stderrReader ⟨lines, some e⟩).logs =
          (if isEndOfStream e then [] else [errMsg e]) ∧
        (stderrReader ⟨lines, some e⟩).done = true) := by
  refine ⟨fun e => ?_, stdoutReader_stops, fun lines e => ⟨rfl, rfl⟩⟩
  cases e <;> simp [isEndOfStream]

/-- C6: starting a run with empty program text returns a nil handle and no
error and has no side effects: no directory is created, no file is written,
nothing is spawned, no argument list is built, no cleanup runs, and no
events are ever produced by the run. -/
theorem empty_src_start_is_noop
    (m : Inputs) (keep : Bool) (o : Oracle) (h : m.src = "") :
    mito m keep o = ⟨none, none, false, [], [], false, false⟩ ∧
    ∀ (sr : List DecodeResult) (ss : ScanStream),
      runEvents (mito m keep o) sr ss = ([], []) := by
  constructor
  · simp [mito, h]
  · intro sr ss
    simp [runEvents, mito, h]

theorem empty_src_start_is_noop_witness :
    mito ⟨"", "d", "c", true, true, true⟩ true (allOk "/tmp/miko-3" 9) =
      ⟨none, none, false, [], [], false, false⟩ ∧
    runEvents (mito ⟨"", "d", "c", true, true, true⟩ true (allOk "/tmp/miko-3" 9))
      [.ok (.numV 1)] ⟨["oops"], none⟩ = ([], []) :=
  ⟨(empty_src_start_is_noop _ true _ rfl).1,
   (empty_src_start_is_noop _ true _ rfl).2 [.ok (.numV 1)] ⟨["oops"], none⟩⟩

/-- C7: a successful start builds the engine's argument list as
-data path (only when data is non-empty), then -cfg path (only when cfg is
non-empty), then one flag per enabled boolean option, ending with the path
of the written program-text file; and it writes exactly the files whose
payloads are non-empty — precisely those the arguments reference. -/
theorem engine_argument_list_layout
    (m : Inputs) (keep : Bool) (dir : String) (pid : Nat)
    (h : m.src ≠ "") :
    (mito m keep (allOk dir pid)).args =
      (if m.data ≠ "" then ["-data", fjoin dir "data.json"] else []) ++
      (if m.cfg ≠ "" then ["-cfg", fjoin dir "cfg.yml"] else []) ++
      (if m.insecure then ["-insecure"] else []) ++
      (if m.logRequests then ["-log_requests"] else []) ++
      (if m.dumpCrash then ["-dump", "error"] else []) ++
      [fjoin dir "src.cel"] ∧
    (mito m keep (allOk dir pid)).filesWritten =
      (if m.data ≠ "" then [fjoin dir "data.json"] else []) ++
      (if m.cfg ≠ "" then [fjoin dir "cfg.yml"] else []) ++
      [fjoin dir "src.cel"] ∧
    (mito m keep (allOk dir pid)).args.getLast? = some (fjoin dir "src.cel") := by
  have harg : (mito m keep (allOk dir pid)).args =
      (if m.data ≠ "" then ["-data", fjoin dir "data.json"] else []) ++
      (if m.cfg ≠ "" then ["-cfg", fjoin dir "cfg.yml"] else []) ++
      (if m.insecure then ["-insecure"] else []) ++
      (if m.logRequests then ["-log_requests"] else []) ++
      (if m.dumpCrash then ["-dump", "error"] else []) ++
      [fjoin dir "src.cel"] := by
    by_cases hd : m.data = "" <;> by_cases hc : m.cfg = "" <;>
      simp [mito, allOk, h, hd, hc]
  refine ⟨harg, ?_, ?_⟩
  · by_cases hd : m.data = "" <;> by_cases hc : m.cfg = "" <;>
      simp [mito, allOk, h, hd, hc]
  · rw [harg]
    simp

theorem engine_argument_list_layout_witness :
    (mito ⟨"x", "y", "z", true, false, true⟩ false (allOk "/tmp/miko-4" 3)).args =
      (if ("y" : String) ≠ "" then ["-data", fjoin "/tmp/miko-4" "data.json"] else []) ++
      (if ("z" : String) ≠ "" then ["-cfg", fjoin "/tmp/miko-4" "cfg.yml"] else []) ++
      (if true then ["-insecure"] else []) ++
      (if false then ["-log_requests"] else []) ++
      (if true then ["-dump", "error"] else []) ++
      [fjoin "/tmp/miko-4" "src.cel"] ∧
    (mito ⟨"x", "y", "z", true, false, true⟩ false (allOk "/tmp/miko-4" 3)).filesWritten =
      (if ("y" : String) ≠ "" then [fjoin "/tmp/miko-4" "data.json"] else []) ++
      (if ("z" : String) ≠ "" then [fjoin "/tmp/miko-4" "cfg.yml"] else []) ++
      [fjoin "/tmp/miko-4" "src.cel"] ∧
    (mito ⟨"x", "y", "z", true, false, true⟩ false (allOk "/tmp/miko-4" 3)).args.getLast? =
      some (fjoin "/tmp/miko-4" "src.cel") :=
  engine_argument_list_layout _ false "/tmp/miko-4" 3 (by decide)


theorem mito_spawned_err_none (m : Inputs) (keep : Bool) (o : Oracle) :
    (mito m keep o).spawned = true → (mito m keep o).err = none := by
  by_cases h0 : m.src = ""
  · simp [mito, h0]
  · by_cases h1 : (!o.mkdirOk) = true
    · simp [mito, h0, h1]
    · by_cases h2 : (m.data != "" && !o.writeDataOk) = true
      · simp [mito, h0, h1, h2]
      · by_cases h3 : (m.cfg != "" && !o.writeCfgOk) = true
        · simp [mito, h0, h1, h2, h3]
        · by_cases h4 : (!o.writeSrcOk) = true
          · simp [mito, h0, h1, h2, h3, h4]
          · by_cases h5 : (!o.stdoutPipeOk) = true
            · simp [mito, h0, h1, h2, h3, h4, h5]
            · by_cases h6 : (!o.stderrPipeOk) = true
              · simp [mito, h0, h1, h2, h3, h4, h5, h6]
              · by_cases h7 : (!o.startOk) = true
                · simp [mito, h0, h1, h2, h3, h4, h5, h6, h7]
                · simp [mito, h0, h1, h2, h3, h4, h5, h6, h7]

/-- C8 counterexample: with a process stored and kill delivery failing, the
Cancel handler reports the kill failure through printError — a direct write
of error-tagged text into the display widget — and passes nothing to
log.Println, so a kill-delivery failure is not visible "only through
side-channel logging" as the claim states. -/
theorem kill_failure_surfaces_via_display_not_log :
    (cancelCommand ⟨some ⟨3⟩, ⟨"x", "", "", false, false, false⟩⟩ false).2 =
      [.killAct ⟨3⟩, .printErrAct killErrText] ∧
    ((cancelCommand ⟨some ⟨3⟩, ⟨"x", "", "", false, false, false⟩⟩ false).2.any
        Action.isLog) = false := by
  decide

/-- C8 (amended): errors arising after the process has been spawned are
never returned from start and never enqueued on the Event Queue — a spawned
run's mito call returns a nil error; the structured-stream reader sends only
output-tagged re-serializations of fully decoded records, so decode and read
errors reach log.Println only; the diagnostic-stream reader's error-tagged
events are exactly the lines the engine itself wrote; and a kill-delivery
failure is reported by writing the error text directly to the display via
printError, bypassing both the Event Queue and the log. -/
theorem post_spawn_errors_bypass_start_and_queue :
    (∀ (m : Inputs) (keep : Bool) (o : Oracle),
      (mito m keep o).spawned = true → (mito m keep o).err = none) ∧
    (∀ rs : List DecodeResult,
      (stdoutReader rs).events =
        (decodedValues rs).map fun v => text.mk (marshalIndent v) "output") ∧
    (∀ ss : ScanStream,
      (stderrReader ss).events = ss.lines.map fun l => ⟨l, "error"⟩) ∧
    (∀ (p : Process) (i : Inputs),
      (cancelCommand ⟨some p, i⟩ false).2 = [.killAct p, .printErrAct killErrText] ∧
      ((cancelCommand ⟨some p, i⟩ false).2.any Action.isLog) = false) :=
  ⟨mito_spawned_err_none, stdoutReader_events_eq, fun _ => rfl, fun _ _ => ⟨rfl, rfl⟩⟩

theorem post_spawn_errors_bypass_start_and_queue_witness :
    (mito ⟨"x", "", "", false, false, false⟩ false (allOk "/tmp/miko-5" 2)).err = none ∧
    (cancelCommand ⟨some ⟨3⟩, ⟨"x", "", "", false, false, false⟩⟩ false).2 =
      [.killAct ⟨3⟩, .printErrAct killErrText] :=
  ⟨post_spawn_errors_bypass_start_and_queue.1 _ false _ rfl,
   (post_spawn_errors_bypass_start_and_queue.2.2.2 ⟨3⟩ _).1⟩

/-- Is this the error of a failed MkdirTemp or a failed input-file write —
the failures that happen while the deferred cleanup is still armed? -/
def isPreSpawnIOErr : Option MitoErr → Bool
  | some .mkdirFail => true
  | some (.writeFail _) => true
  | _ => false

/-- C9: if creating the workspace directory fails, or writing the data,
config, or program-text file fails, then start returns that pre-spawn IO
error, no process is spawned, and no file of the failed start remains on
disk — whenever the directory was created, the deferred RemoveAll has
already deleted it by the time start returns. -/
theorem prespawn_failure_is_atomic
    (m : Inputs) (keep : Bool) (o : Oracle)
    (hsrc : m.src ≠ "")
    (h : o.mkdirOk = false ∨ (m.data ≠ "" ∧ o.writeDataOk = false) ∨
      (m.cfg ≠ "" ∧ o.writeCfgOk = false) ∨ o.writeSrcOk = false) :
    isPreSpawnIOErr (mito m keep o).err = true ∧
    (mito m keep o).proc = none ∧
    (mito m keep o).spawned = false ∧
    filesAfterReturn (mito m keep o) = [] ∧
    ((mito m keep o).dirCreated = true → (mito m keep o).cleanupRan = true) := by
  by_cases h1 : (!o.mkdirOk) = true
  · simp [mito, filesAfterReturn, isPreSpawnIOErr, hsrc, h1]
  · by_cases h2 : (m.data != "" && !o.writeDataOk) = true
    · simp [mito, filesAfterReturn, isPreSpawnIOErr, hsrc, h1, h2]
    · by_cases h3 : (m.cfg != "" && !o.writeCfgOk) = true
      · simp [mito, filesAfterReturn, isPreSpawnIOErr, hsrc, h1, h2, h3]
      · by_cases h4 : (!o.writeSrcOk) = true
        · simp [mito, filesAfterReturn, isPreSpawnIOErr, hsrc, h1, h2, h3, h4]
        · exfalso
          rcases h with hm | ⟨hd, hw⟩ | ⟨hc, hw⟩ | hw
          · simp [hm] at h1
          · apply h2; simp [hw, hd]
          · apply h3; simp [hw, hc]
          · apply h4; simp [hw]

theorem prespawn_failure_is_atomic_witness :
    isPreSpawnIOErr (mito ⟨"x", "y", "", false, false, false⟩ false
      ⟨"/tmp/miko-6", 1, true, false, true, true, true, true, true⟩).err = true ∧
    (mito ⟨"x", "y", "", false, false, false⟩ false
      ⟨"/tmp/miko-6", 1, true, false, true, true, true, true, true⟩).proc = none ∧
    (mito ⟨"x", "y", "", false, false, false⟩ false
      ⟨"/tmp/miko-6", 1, true, false, true, true, true, true, true⟩).spawned = false ∧
    filesAfterReturn (mito ⟨"x", "y", "", false, false, false⟩ false
      ⟨"/tmp/miko-6", 1, true, false, true, true, true, true, true⟩) = [] ∧
    ((mito ⟨"x", "y", "", false, false, false⟩ false
      ⟨"/tmp/miko-6", 1, true, false, true, true, true, true, true⟩).dirCreated = true →
      (mito ⟨"x", "y", "", false, false, false⟩ false
        ⟨"/tmp/miko-6", 1, true, false, true, true, true, true, true⟩).cleanupRan = true) :=
  prespawn_failure_is_atomic _ false _ (by decide) (Or.inr (Or.inl ⟨by decide, rfl⟩))

/-- C10: a Run request with a process active but empty program text still
kills the active process and stores nil in the slot — the slot is always
overwritten with start's return value, nil included — so a subsequent
Cancel press finds a nil slot and is a no-op. -/
theorem run_with_empty_src_kills_and_clears_slot
    (s : MikoState) (o : Oracle) (p : Process)
    (hp : s.ps = some p) (hsrc : s.inputs.src = "") :
    (runCommand s true o).2 = [.killAct p, .storeAct none] ∧
    (runCommand s true o).1.ps = none ∧
    cancelCommand (runCommand s true o).1 true = ((runCommand s true o).1, []) ∧
    ∀ (s' : MikoState) (killOk : Bool) (o' : Oracle),
      (runCommand s' killOk o').1.ps = (mito s'.inputs false o').proc := by
  have hm : mito s.inputs false o = ⟨none, none, false, [], [], false, false⟩ := by
    simp [mito, hsrc]
  refine ⟨?_, ?_, ?_, ?_⟩
  · unfold runCommand; rw [hp, hm]; simp
  · unfold runCommand; rw [hm]
  · unfold runCommand cancelCommand; rw [hm]
  · intro s' killOk o'; unfold runCommand; cases s'.ps <;> simp

theorem run_with_empty_src_kills_and_clears_slot_witness :
    (runCommand ⟨some ⟨4⟩, ⟨"", "d", "", false, false, false⟩⟩ true
        (allOk "/tmp/miko-7" 8)).2 = [.killAct ⟨4⟩, .storeAct none] ∧
    (runCommand ⟨some ⟨4⟩, ⟨"", "d", "", false, false, false⟩⟩ true
        (allOk "/tmp/miko-7" 8)).1.ps = none ∧
    cancelCommand (runCommand ⟨some ⟨4⟩, ⟨"", "d", "", false, false, false⟩⟩ true
        (allOk "/tmp/miko-7" 8)).1 true =
      ((runCommand ⟨some ⟨4⟩, ⟨"", "d", "", false, false, false⟩⟩ true
        (allOk "/tmp/miko-7" 8)).1, []) ∧
    ∀ (s' : MikoState) (killOk : Bool) (o' : Oracle),
      (runCommand s' killOk o').1.ps = (mito s'.inputs false o').proc :=
  run_with_empty_src_kills_and_clears_slot _ _ ⟨4⟩ rfl rfl

end Miko
